import Mathlib

/-!
Verification of the `now remove` command of zeusdeux/now-cli.

The embedding covers the removal orchestration workflow of
`src/commands/remove` (provided as `src/unnamed/part_000`): identifier
resolution, the parallel alias probe, the safe-mode filter, the confirmation
gate and the parallel removal batch, together with the typed error taxonomy of
`src/util/errors-ts.ts`.

JavaScript strings are modelled as Lean `String`s, and the JS string built-ins
the source calls (`trim`, `toLowerCase`) are re-implemented over the character
list so that concrete instances evaluate inside the kernel; the inputs of
interest are ASCII, where these agree with the JS built-ins.

Asynchrony is flattened: each remote service is a function returning
`Except ε α` (a settled promise), and `Promise.all` over a list of settled
results succeeds with the value list when every element succeeds and otherwise
rejects with the first failure in list order.
-/

/-- JS whitespace characters relevant to `String.prototype.trim` on the ASCII
range. -/
def isJsSpace (c : Char) : Bool :=
  c == ' ' || c == '\t' || c == '\n' || c == '\r' || c == '\x0b' || c == '\x0c'

/-- Model of JS `String.prototype.trim`: drop whitespace from both ends. -/
def jsTrim (s : String) : String :=
  String.mk (((s.data.dropWhile isJsSpace).reverse.dropWhile isJsSpace).reverse)

/-- Model of JS `String.prototype.toLowerCase` on the ASCII range. -/
def jsToLowerCase (s : String) : String :=
  String.mk (s.data.map Char.toLower)

/-- Drop `pre` from the front of `s` when `s` starts with it, else `s`. -/
def stripPrefixList (pre s : List Char) : List Char :=
  if pre.isPrefixOf s then s.drop pre.length else s

/-- Drop a trailing `'/'` from `s` when present. -/
def stripTrailingSlash (s : List Char) : List Char :=
  if s.getLast? == some '/' then s.dropLast else s

/-- Modelled from the spec: `normalizeURL` is imported from `../util/url`,
which is not among the provided sources. Per the spec, "URL normalization must
strip scheme and trailing slash so that `https://foo.com/` and `foo.com`
compare equal". -/
def normalizeURL (u : String) : String :=
  String.mk (stripTrailingSlash (stripPrefixList "http://".data (stripPrefixList "https://".data u.data)))

/-- A deployment as returned by `now.list` (uid, name, url, created
timestamp). -/
structure Deployment where
  uid : String
  name : String
  url : String
  created : Nat
  deriving Repr, DecidableEq

/-- An alias record as returned by `getAliases`: the alias hostname (field
`alias` in the source; renamed because `alias` is a Lean keyword). -/
structure AliasRec where
  aliasHost : String
  deriving Repr, DecidableEq

/-- The identifier resolution step of `main`
(`deployments.filter(d => ids.some(id => d.uid === id || d.name === id || d.url === normalizeURL(id)))`). -/
def resolve (deployments : List Deployment) (ids : List String) : List Deployment :=
  deployments.filter fun d =>
    ids.any fun id => d.uid == id || d.name == id || d.url == normalizeURL id

/-- The resolution predicate as the spec words it: `i == d.uid` or
`i == d.name` or `normalize(i) == normalize(d.url)`, normalization applied to
both sides of the URL comparison. Kept separate from `resolve` (the code) for
comparison. -/
def resolveSpec (deployments : List Deployment) (ids : List String) : List Deployment :=
  deployments.filter fun d =>
    ids.any fun id => d.uid == id || d.name == id || normalizeURL id == normalizeURL d.url

/-- `Promise.all` over a list of settled results: the value list when every
element succeeded, otherwise the first rejection in list order. -/
def promiseAll {ε α : Type} : List (Except ε α) → Except ε (List α)
  | [] => Except.ok []
  | r :: rs =>
    match r with
    | Except.error e => Except.error e
    | Except.ok a => (promiseAll rs).map (fun as => a :: as)

/-- The first rejection, in list order, among a list of settled results. -/
def firstErr {ε α : Type} : List (Except ε α) → Option ε
  | [] => none
  | Except.error e :: _ => some e
  | Except.ok _ :: rs => firstErr rs

/-- A match annotated with its alias list (the source mutates the deployment
object, `match.aliases = aliases[i]`; here the annotation is a separate
record). -/
structure AliasedDeployment where
  depl : Deployment
  aliases : List AliasRec
  deriving Repr, DecidableEq

/-- The safe-mode filter of `main`:
`matched.filter((match, i) => { if (argv.safe && aliases[i].length > 0) return false; match.aliases = aliases[i]; return true; })`.
The index access `aliases[i]` pairs each match with the alias list at the same
position, which the zip realises; the alias list always has the same length as
`matched` at the call site (proved below). -/
def safetyFilter (safe : Bool) (matched : List Deployment) (aliases : List (List AliasRec)) :
    List AliasedDeployment :=
  ((matched.zip aliases).filter fun p => !(safe && decide (p.2.length > 0))).map
    fun p => { depl := p.1, aliases := p.2 }

/-- The alias-annotated list before any filtering (what `safetyFilter` sees as
its input). -/
def annotateAll (matched : List Deployment) (aliases : List (List AliasRec)) :
    List AliasedDeployment :=
  (matched.zip aliases).map fun p => { depl := p.1, aliases := p.2 }

/-- The uids for which the removal batch issues a request:
`matched.map(depl => now.remove(depl.uid, { hard }))` issues exactly one
request per confirmed candidate, in list order. -/
def removalRequests (confirmed : List AliasedDeployment) : List String :=
  confirmed.map fun a => a.depl.uid

/-- The removal batch of `main`:
`await Promise.all(matched.map(depl => now.remove(depl.uid, { hard })))`. -/
def batchRemove {ε : Type} (remove : String → Bool → Except ε Unit) (hard : Bool)
    (confirmed : List AliasedDeployment) : Except ε (List Unit) :=
  promiseAll (confirmed.map fun a => remove a.depl.uid hard)

/-- The confirmation predicate: `readConfirmation` resolves the input line
trimmed (`d.toString().trim()`), and `main` lowercases it and accepts exactly
`y` or `yes` (`confirmation !== 'y' && confirmation !== 'yes'` aborts). -/
def isAffirmative (d : String) : Bool :=
  let confirmation := jsToLowerCase (jsTrim d)
  confirmation == "y" || confirmation == "yes"

/-- The environment of one invocation of `main`: parsed flags and positional
identifiers, and the settled outcomes of each collaborator call. `errCode`
exposes the `code` property the catch block of the scope lookup inspects. -/
structure Ctx (ε : Type) where
  help : Bool
  ids : List String
  safe : Bool
  yes : Bool
  hard : Bool
  errCode : ε → String
  scope : Except ε String
  list : Except ε (List Deployment)
  getAliases : String → Except ε (List AliasRec)
  remove : String → Bool → Except ε Unit
  confirm : String

/-- How one invocation of `main` ends: a returned exit code, or an error
propagated (re-thrown) to the top level. -/
inductive ExitOrThrow (ε : Type) where
  | exit (code : Nat)
  | thrown (e : ε)
  deriving DecidableEq

/-- The observable result of one invocation: how it ended, the uids for which
a removal request was issued, which word the "Could not find ... deployments
matching" message used (when printed), and whether the confirmation prompt was
shown. -/
structure MainResult (ε : Type) where
  result : ExitOrThrow ε
  removals : List String
  noMatchWord : Option String
  confirmPrompted : Bool
  deriving DecidableEq

/-- The `main` function of the remove command (named `removeMain` here because Lean reserves `main` for executables), stage by stage: argument
checks, scope lookup, deployment list fetch, identifier resolution, parallel
alias probe, safe-mode filter, empty-set early exit, confirmation gate,
parallel removal batch. Removal requests are all issued before the batch join
settles, so `removals` lists every confirmed candidate even when the join
rejects. -/
def removeMain {ε : Type} (ctx : Ctx ε) : MainResult ε :=
  if ctx.ids.length < 1 then
    { result := ExitOrThrow.exit 1, removals := [], noMatchWord := none, confirmPrompted := false }
  else if ctx.help || ctx.ids.head? == some "help" then
    { result := ExitOrThrow.exit 2, removals := [], noMatchWord := none, confirmPrompted := false }
  else
    match ctx.scope with
    | Except.error err =>
      if ctx.errCode err == "not_authorized" then
        { result := ExitOrThrow.exit 1, removals := [], noMatchWord := none,
          confirmPrompted := false }
      else
        { result := ExitOrThrow.thrown err, removals := [], noMatchWord := none,
          confirmPrompted := false }
    | Except.ok _contextName =>
      match ctx.list with
      | Except.error e =>
        { result := ExitOrThrow.thrown e, removals := [], noMatchWord := none,
          confirmPrompted := false }
      | Except.ok deployments =>
        let matched := resolve deployments ctx.ids
        match promiseAll (matched.map fun depl => ctx.getAliases depl.uid) with
        | Except.error e =>
          { result := ExitOrThrow.thrown e, removals := [], noMatchWord := none,
            confirmPrompted := false }
        | Except.ok aliases =>
          let filtered := safetyFilter ctx.safe matched aliases
          if filtered.length = 0 then
            { result := ExitOrThrow.exit 0, removals := [],
              noMatchWord := some (if ctx.safe then "unaliased" else "any"),
              confirmPrompted := false }
          else
            if !ctx.yes && !isAffirmative ctx.confirm then
              { result := ExitOrThrow.exit 1, removals := [], noMatchWord := none,
                confirmPrompted := true }
            else
              let reqs := removalRequests filtered
              match batchRemove ctx.remove ctx.hard filtered with
              | Except.error e =>
                { result := ExitOrThrow.thrown e, removals := reqs, noMatchWord := none,
                  confirmPrompted := !ctx.yes }
              | Except.ok _ =>
                { result := ExitOrThrow.exit 0, removals := reqs, noMatchWord := none,
                  confirmPrompted := !ctx.yes }

/-- Model of JS `parseInt(s, 10)`: skip leading whitespace, optional sign,
parse the longest leading run of decimal digits; NaN (modelled as `none`) when
no digit is found. -/
def parseIntJS (s : String) : Option Int :=
  let t := (jsTrim s).data
  let signRest : Int × List Char :=
    match t with
    | '-' :: rest => (-1, rest)
    | '+' :: rest => (1, rest)
    | _ => (1, t)
  let digits := signRest.2.takeWhile Char.isDigit
  if digits.isEmpty then none
  else some (signRest.1 * (digits.foldl (fun n c => n * 10 + (c.toNat - 48)) 0 : Nat))

/-- The response data the `APIError` constructor reads: the HTTP status and
the `Retry-After` header (`headers.get` yields null, here `none`, when the
header is absent). -/
structure ApiResponse where
  status : Nat
  retryAfterHeader : Option String
  deriving Repr, DecidableEq

/-- The transport/API failure of `util/errors-ts.ts`. `extraFields` holds the
body fields other than `message` that the constructor copies onto the
instance; `retryAfter` is `none` when the property was never assigned, and
`some none` models an assigned NaN. -/
structure APIError where
  message : String
  status : Nat
  serverMessage : String
  extraFields : List (String × String)
  retryAfter : Option (Option Int)
  deriving Repr, DecidableEq

/-- The `APIError` constructor: sets `message` to `${message} (${status})`,
keeps the status and the server message, copies body fields other than
`message`, and for HTTP 429 with a truthy `Retry-After` header stores
`parseInt(header, 10)`. -/
def APIError.make (message : String) (response : ApiResponse)
    (body : Option (List (String × String))) : APIError :=
  { message := message ++ " (" ++ toString response.status ++ ")"
    status := response.status
    serverMessage := message
    extraFields :=
      match body with
      | none => []
      | some fields => fields.filter fun f => f.1 != "message"
    retryAfter :=
      if response.status == 429 then
        match response.retryAfterHeader with
        | some h => if h != "" then some (parseIntJS h) else none
        | none => none
      else none }

/-- Modelled from the spec: the `NowError` base class lives in
`util/now-error`, which is not among the provided sources; per the spec it is
a structured error value "carrying a machine-readable code, human message, and
metadata payload". -/
structure NowError (M : Type) where
  code : String
  message : String
  meta : M
  deriving Repr, DecidableEq

/-- Modelled from the spec: `param` is a presentation helper from
`util/output/param`, not among the provided sources; the spec excludes output
rendering from the core, so it is modelled as the identity on the text. -/
def param (s : String) : String := s

/-- `TeamDeleted` from `util/errors-ts.ts`. -/
def TeamDeleted : NowError Unit :=
  { code := "team_deleted"
    message := "Your team was deleted. You can switch to a different one using " ++
      param "now switch" ++ "."
    meta := () }

/-- `InvalidToken` from `util/errors-ts.ts`. -/
def InvalidToken : NowError Unit :=
  { code := "not_authorized", message := "The specified token is not valid", meta := () }

/-- `MissingUser` from `util/errors-ts.ts`. -/
def MissingUser : NowError Unit :=
  { code := "missing_user", message := "Not able to load user, missing from response", meta := () }

/-- `ConflictingOption` from `util/errors-ts.ts`. -/
def ConflictingOption (name : String) : NowError String :=
  { code := "conflicting_option"
    message := "You can\x27t use at the same time a positive and negative value for option " ++ name
    meta := name }

/-- `DomainPermissionDenied` from `util/errors-ts.ts`. -/
def DomainPermissionDenied (domain context : String) : NowError (String × String) :=
  { code := "DOMAIN_PERMISSION_DENIED"
    message := "You don\x27t have access to the domain " ++ domain ++ " under " ++ context ++ "."
    meta := (domain, context) }

/-- `DomainNotFound` from `util/errors-ts.ts`. -/
def DomainNotFound (domain : String) : NowError String :=
  { code := "DOMAIN_NOT_FOUND"
    message := "The domain " ++ domain ++ " can\x27t be found."
    meta := domain }

/-- The closed failure taxonomy of `util/errors-ts.ts`: the `NowError`-derived
variants plus the transport `APIError`, which extends plain `Error`. -/
inductive CliError where
  | api (e : APIError)
  | teamDeleted
  | invalidToken
  | missingUser
  | conflictingOption (name : String)
  | domainPermissionDenied (domain context : String)
  | domainNotFound (domain : String)
  deriving Repr, DecidableEq

/-- The machine-readable `code` property carried by an error value: every
`NowError` subclass sets one in its constructor; the `APIError` constructor
sets no `code` of its own, so only a body-supplied extra field can provide
one. -/
def CliError.codeOf : CliError → Option String
  | CliError.api e => e.extraFields.lookup "code"
  | CliError.teamDeleted => some TeamDeleted.code
  | CliError.invalidToken => some InvalidToken.code
  | CliError.missingUser => some MissingUser.code
  | CliError.conflictingOption name => some (ConflictingOption name).code
  | CliError.domainPermissionDenied d c => some (DomainPermissionDenied d c).code
  | CliError.domainNotFound d => some (DomainNotFound d).code

/-- Fixture: a deployment whose stored url still carries scheme and trailing
slash. -/
def dFoo : Deployment := { uid := "u1", name := "n1", url := "https://foo.com/", created := 0 }

/-- Fixture: the deployment of the spec's end-to-end scenarios. -/
def dApp : Deployment := { uid := "a1", name := "app", url := "app.now.sh", created := 0 }

/-- Fixture: a second deployment whose removal request will fail. -/
def dBad : Deployment := { uid := "b1", name := "bad", url := "bad.now.sh", created := 0 }

/-- Fixture: `dApp` annotated with no aliases. -/
def aApp : AliasedDeployment := { depl := dApp, aliases := [] }

/-- Fixture: `dBad` annotated with no aliases. -/
def aBad : AliasedDeployment := { depl := dBad, aliases := [] }

/-- Fixture: a removal service that rejects exactly for `dBad`. -/
def remFail : String → Bool → Except String Unit :=
  fun uid _ => if uid == "b1" then Except.error "boom" else Except.ok ()

/-- Fixture: an alias service that always reports no aliases. -/
def fetchNone : String → Except String (List AliasRec) := fun _ => Except.ok []

/-- Fixture: a baseline invocation — one identifier matching `dApp` by name,
no safe mode, confirmation answered "yes", every service succeeding. -/
def ctxA : Ctx String :=
  { help := false
    ids := ["app"]
    safe := false
    yes := false
    hard := false
    errCode := id
    scope := Except.ok "zeus"
    list := Except.ok [dApp]
    getAliases := fun _ => Except.ok []
    remove := fun _ _ => Except.ok ()
    confirm := "yes" }

/-- Fixture: help flag set, zero positional identifiers. -/
def ctxHelpNoArgs : Ctx String :=
  { ctxA with help := true, ids := [] }

/-- Fixture: help flag set, one positional identifier. -/
def ctxHelpWithArg : Ctx String :=
  { ctxA with help := true }

/-- Fixture: confirmation answered " y" (leading space). -/
def ctxSpacedY : Ctx String :=
  { ctxA with confirm := " y" }

/-- Fixture: confirmation answered "no". -/
def ctxNo : Ctx String :=
  { ctxA with confirm := "no" }

/-- Fixture: the alias probe rejects for every deployment. -/
def ctxProbeFail : Ctx String :=
  { ctxA with getAliases := fun _ => Except.error "probe down" }

/-- Fixture: safe mode with the only match aliased (end-to-end scenario B). -/
def ctxSafeAliased : Ctx String :=
  { ctxA with safe := true, getAliases := fun _ => Except.ok [{ aliasHost := "app.com" }] }

/-- Fixture: an identifier matching nothing (end-to-end scenario C). -/
def ctxNoMatch : Ctx String :=
  { ctxA with ids := ["missing-id"] }

/-- Fixture: a plain 500 response with no Retry-After header. -/
def apiResp500 : ApiResponse := { status := 500, retryAfterHeader := none }

/-- `Promise.all` rejects exactly with the first rejection, in list order. -/
theorem promiseAll_error_iff {ε α : Type} (rs : List (Except ε α)) (e : ε) :
    promiseAll rs = Except.error e ↔ firstErr rs = some e := by
  induction rs with
  | nil => simp [promiseAll, firstErr]
  | cons r rs ih =>
    cases r with
    | error e2 => simp [promiseAll, firstErr]
    | ok a =>
      simp only [promiseAll, firstErr]
      cases hp : promiseAll rs with
      | error e2 => simp only [hp, Except.map] at ih ⊢; exact ih
      | ok as => simp only [hp, Except.map] at ih ⊢; simpa using ih

/-- A fulfilled `Promise.all` pairs each input with its value, positionally. -/
theorem promiseAll_ok_forall₂ {ε α : Type} {rs : List (Except ε α)} {as : List α}
    (h : promiseAll rs = Except.ok as) :
    List.Forall₂ (fun r a => r = Except.ok a) rs as := by
  induction rs generalizing as with
  | nil =>
    simp only [promiseAll] at h
    cases h
    exact List.Forall₂.nil
  | cons r rs ih =>
    cases r with
    | error e => simp [promiseAll] at h
    | ok a =>
      simp only [promiseAll] at h
      cases hp : promiseAll rs with
      | error e => rw [hp] at h; simp [Except.map] at h
      | ok as2 =>
        rw [hp] at h
        simp only [Except.map] at h
        cases h
        exact List.Forall₂.cons rfl (ih hp)

/-- Every constituent of a fulfilled `Promise.all` was itself fulfilled. -/
theorem promiseAll_ok_mem {ε α : Type} {rs : List (Except ε α)} {as : List α}
    (h : promiseAll rs = Except.ok as) {r : Except ε α} (hr : r ∈ rs) :
    ∃ a, r = Except.ok a := by
  revert h hr
  induction rs generalizing as with
  | nil => intro h hr; cases hr
  | cons r2 rs ih =>
    intro h hr
    cases r2 with
    | error e => simp [promiseAll] at h
    | ok a =>
      rcases List.mem_cons.mp hr with h1 | h2
      · exact ⟨a, h1⟩
      · simp only [promiseAll] at h
        cases hp : promiseAll rs with
        | error e => rw [hp] at h; simp [Except.map] at h
        | ok as2 => exact ih hp h2

/-- A list with a rejected element has a first rejection. -/
theorem firstErr_isSome {ε α : Type} {rs : List (Except ε α)}
    (h : ∃ r ∈ rs, r.isOk = false) : ∃ e, firstErr rs = some e := by
  induction rs with
  | nil => simp at h
  | cons r rs ih =>
    cases r with
    | error e => exact ⟨e, rfl⟩
    | ok a =>
      rcases h with ⟨r2, hmem, hko⟩
      rcases List.mem_cons.mp hmem with h1 | h2
      · rw [h1] at hko; simp [Except.isOk, Except.toBool] at hko
      · exact ih ⟨r2, h2, hko⟩

/-- Reduction of `removeMain` once the argument checks pass and the scope
lookup, the deployment fetch and the alias probe have all succeeded. -/
theorem removeMain_resolved {ε : Type} (ctx : Ctx ε) (deployments : List Deployment)
    (aliases : List (List AliasRec)) (c : String)
    (h1 : 1 ≤ ctx.ids.length) (h2 : ctx.help = false) (h3 : ctx.ids.head? ≠ some "help")
    (h4 : ctx.scope = Except.ok c) (h5 : ctx.list = Except.ok deployments)
    (h6 : promiseAll ((resolve deployments ctx.ids).map fun d => ctx.getAliases d.uid) =
      Except.ok aliases) :
    removeMain ctx =
      (if (safetyFilter ctx.safe (resolve deployments ctx.ids) aliases).length = 0 then
        { result := ExitOrThrow.exit 0, removals := [],
          noMatchWord := some (if ctx.safe then "unaliased" else "any"),
          confirmPrompted := false }
      else if !ctx.yes && !isAffirmative ctx.confirm then
        { result := ExitOrThrow.exit 1, removals := [], noMatchWord := none,
          confirmPrompted := true }
      else
        match batchRemove ctx.remove ctx.hard
            (safetyFilter ctx.safe (resolve deployments ctx.ids) aliases) with
        | Except.error e =>
          { result := ExitOrThrow.thrown e,
            removals := removalRequests (safetyFilter ctx.safe (resolve deployments ctx.ids) aliases),
            noMatchWord := none, confirmPrompted := !ctx.yes }
        | Except.ok _ =>
          { result := ExitOrThrow.exit 0,
            removals := removalRequests (safetyFilter ctx.safe (resolve deployments ctx.ids) aliases),
            noMatchWord := none, confirmPrompted := !ctx.yes }) := by
  have hc1 : ¬ (ctx.ids.length < 1) := by omega
  have hc2 : (ctx.help || ctx.ids.head? == some "help") = false := by
    simp only [h2, Bool.false_or, beq_eq_false_iff_ne]
    exact h3
  unfold removeMain
  rw [if_neg hc1, hc2, h4, h5]
  simp only [Bool.false_eq_true, if_false, h6]

/-- C1: counterexample — the code does not normalize the deployment's stored
URL. For the deployment list `[dFoo]` with `dFoo.url = "https://foo.com/"` and
the identifier list `["foo.com"]`, identifier and URL normalize to the same
string, so the claimed both-sides rule puts `dFoo` in the result (as
`resolveSpec` does), but the resolver compares the raw `d.url` against the
normalized identifier and returns no match. -/
theorem resolve_both_sides_counterexample :
    normalizeURL "foo.com" = normalizeURL dFoo.url ∧
    resolveSpec [dFoo] ["foo.com"] = [dFoo] ∧
    resolve [dFoo] ["foo.com"] = [] := by decide

/-- C1 (amended): a deployment is in the resolver output exactly when it is
drawn from the input list and some identifier equals its uid, equals its name,
or — with normalization applied to the identifier only — equals its stored
URL. -/
theorem resolve_mem_iff (deployments : List Deployment) (ids : List String) (d : Deployment) :
    d ∈ resolve deployments ids ↔
      d ∈ deployments ∧ ∃ i ∈ ids, d.uid = i ∨ d.name = i ∨ d.url = normalizeURL i := by
  simp [resolve, List.mem_filter, List.any_eq_true, or_assoc]

/-- C6: the resolver output is a sublist of the input (every returned
deployment is drawn from a distinct position of D), and when the input uids
are pairwise distinct the output uids are too, so a deployment matched by
several identifiers appears exactly once in the candidate set. -/
theorem resolve_sublist_uid_nodup (deployments : List Deployment) (ids : List String) :
    (resolve deployments ids).Sublist deployments ∧
    ((deployments.map Deployment.uid).Nodup →
      ((resolve deployments ids).map Deployment.uid).Nodup) := by
  refine ⟨List.filter_sublist deployments, fun h => ?_⟩
  exact h.sublist ((List.filter_sublist deployments).map Deployment.uid)

/-- C6 witness: identifiers "a1" (the uid) and "app" (the name) both match
`dApp`, which still appears exactly once. -/
theorem resolve_sublist_uid_nodup_witness :
    (resolve [dApp] ["a1", "app"]).Sublist [dApp] ∧
    ((resolve [dApp] ["a1", "app"]).map Deployment.uid).Nodup :=
  ⟨(resolve_sublist_uid_nodup [dApp] ["a1", "app"]).1,
   (resolve_sublist_uid_nodup [dApp] ["a1", "app"]).2 (by decide)⟩

/-- C5: with safeMode=true the safety filter returns exactly the
alias-annotated entries whose alias list is empty, in input order; with
safeMode=false it returns the annotated input unchanged; surviving entries
carry their alias lists. -/
theorem safetyFilter_safe_mode (matched : List Deployment) (aliases : List (List AliasRec)) :
    safetyFilter true matched aliases =
      (annotateAll matched aliases).filter (fun a => a.aliases.isEmpty) ∧
    safetyFilter false matched aliases = annotateAll matched aliases := by
  constructor
  · unfold safetyFilter annotateAll
    rw [List.filter_map]
    congr 1
    apply List.filter_congr
    intro p hp
    cases h : p.2 <;> simp [Function.comp, h]
  · unfold safetyFilter annotateAll
    simp

/-- C2: the removal batch issues one request per confirmed candidate, aligned
by index with the candidate list, and the aggregate join rejects exactly with
the first failing request in list order; in particular it is a failure
whenever any single request fails, regardless of how the other requests
fared. -/
theorem batchRemove_first_failure_wins {ε : Type} (remove : String → Bool → Except ε Unit)
    (hard : Bool) (confirmed : List AliasedDeployment) :
    (removalRequests confirmed).length = confirmed.length ∧
    (∀ i (h1 : i < confirmed.length) (h2 : i < (removalRequests confirmed).length),
      (removalRequests confirmed).get ⟨i, h2⟩ = (confirmed.get ⟨i, h1⟩).depl.uid) ∧
    (∀ e, batchRemove remove hard confirmed = Except.error e ↔
      firstErr (confirmed.map fun a => remove a.depl.uid hard) = some e) ∧
    ((∃ a ∈ confirmed, (remove a.depl.uid hard).isOk = false) →
      ∃ e, batchRemove remove hard confirmed = Except.error e) := by
  refine ⟨List.length_map _ _, fun i h1 h2 => ?_, fun e => promiseAll_error_iff _ e, fun hex => ?_⟩
  · simp [removalRequests]
  · obtain ⟨a, ha, hko⟩ := hex
    obtain ⟨e, he⟩ :=
      firstErr_isSome ⟨remove a.depl.uid hard,
        List.mem_map_of_mem (fun x => remove x.depl.uid hard) ha, hko⟩
    exact ⟨e, (promiseAll_error_iff _ e).mpr he⟩

/-- C2 witness: a batch of two candidates where the second one's removal
request fails while the first succeeds still rejects as a whole. -/
theorem batchRemove_first_failure_wins_witness :
    ∃ e, batchRemove remFail false [aApp, aBad] = Except.error e :=
  (batchRemove_first_failure_wins remFail false [aApp, aBad]).2.2.2 (by decide)

/-- C10: when the alias probe join fulfills, the produced alias array has
exactly the length of the matched list and is aligned with it by index —
entry i is the alias list fetched for the uid of match i — so the per-index
access in the safety filter is in bounds, and every filter survivor is
annotated with the alias list fetched for its own uid. -/
theorem probe_alignment {ε : Type} (fetch : String → Except ε (List AliasRec))
    (matched : List Deployment) (aliases : List (List AliasRec))
    (h : promiseAll (matched.map fun d => fetch d.uid) = Except.ok aliases) :
    aliases.length = matched.length ∧
    (∀ i (h1 : i < matched.length) (h2 : i < aliases.length),
      fetch (matched.get ⟨i, h1⟩).uid = Except.ok (aliases.get ⟨i, h2⟩)) ∧
    (∀ safe a, a ∈ safetyFilter safe matched aliases →
      fetch a.depl.uid = Except.ok a.aliases) := by
  have hf := promiseAll_ok_forall₂ h
  rw [List.forall₂_map_left_iff] at hf
  refine ⟨hf.length_eq.symm, fun i h1 h2 => hf.get h1 h2, fun safe a ha => ?_⟩
  unfold safetyFilter at ha
  obtain ⟨p, hpf, hpa⟩ := List.mem_map.mp ha
  have hpz := (List.mem_filter.mp hpf).1
  have hr := List.forall₂_zip hf hpz
  rw [← hpa]
  exact hr

/-- C10 witness: one matched deployment probed by `fetchNone` yields the
aligned singleton alias array. -/
theorem probe_alignment_witness :
    (([[]] : List (List AliasRec)).length = [dApp].length ∧
      (∀ i (h1 : i < [dApp].length) (h2 : i < ([[]] : List (List AliasRec)).length),
        fetchNone ([dApp].get ⟨i, h1⟩).uid =
          Except.ok (([[]] : List (List AliasRec)).get ⟨i, h2⟩)) ∧
      (∀ safe a, a ∈ safetyFilter safe [dApp] [[]] →
        fetchNone a.depl.uid = Except.ok a.aliases)) :=
  probe_alignment fetchNone [dApp] [[]] rfl

/-- C4: if the argument checks pass, the scope lookup and the deployment fetch
succeed, and any single alias probe for a matched deployment fails, then the
workflow re-throws an error before the confirmation stage: the prompt is never
shown, no alias-annotated candidate is produced, and no removal request is
issued. -/
theorem probe_failure_aborts {ε : Type} (ctx : Ctx ε) (deployments : List Deployment) (c : String)
    (h1 : 1 ≤ ctx.ids.length) (h2 : ctx.help = false) (h3 : ctx.ids.head? ≠ some "help")
    (h4 : ctx.scope = Except.ok c) (h5 : ctx.list = Except.ok deployments)
    (hfail : ∃ d ∈ resolve deployments ctx.ids, (ctx.getAliases d.uid).isOk = false) :
    ∃ e, removeMain ctx =
      { result := ExitOrThrow.thrown e, removals := [], noMatchWord := none,
        confirmPrompted := false } := by
  have hc1 : ¬ (ctx.ids.length < 1) := by omega
  have hc2 : (ctx.help || ctx.ids.head? == some "help") = false := by
    simp only [h2, Bool.false_or, beq_eq_false_iff_ne]
    exact h3
  obtain ⟨d, hd, hko⟩ := hfail
  obtain ⟨e, he⟩ :=
    firstErr_isSome ⟨ctx.getAliases d.uid,
      List.mem_map_of_mem (fun x => ctx.getAliases x.uid) hd, hko⟩
  have hperr : promiseAll ((resolve deployments ctx.ids).map fun d => ctx.getAliases d.uid) =
      Except.error e := (promiseAll_error_iff _ e).mpr he
  refine ⟨e, ?_⟩
  unfold removeMain
  rw [if_neg hc1, hc2, h4, h5]
  simp only [Bool.false_eq_true, if_false, hperr]

/-- C4 witness: with every alias probe rejecting, the invocation re-throws and
issues nothing. -/
theorem probe_failure_aborts_witness :
    ∃ e, removeMain ctxProbeFail =
      { result := ExitOrThrow.thrown e, removals := [], noMatchWord := none,
        confirmPrompted := false } :=
  probe_failure_aborts ctxProbeFail [dApp] "zeus" (by decide) rfl (by decide) rfl rfl
    ⟨dApp, by decide, by decide⟩

/-- C3: counterexample — the line " y" (leading whitespace) is not an exact
case-insensitive match of "y" or "yes", yet the gate accepts it after
trimming: the workflow proceeds to removal and exits 0 with one request issued
instead of aborting with exit code 1 and zero requests. -/
theorem confirmation_trim_counterexample :
    jsToLowerCase " y" ≠ "y" ∧ jsToLowerCase " y" ≠ "yes" ∧
    (removeMain ctxSpacedY).result = ExitOrThrow.exit 0 ∧
    (removeMain ctxSpacedY).removals = ["a1"] := by decide

/-- C3 (amended): at the confirmation gate (candidates nonempty, confirmation
not skipped), the input line counts as affirmative exactly when, after
trimming surrounding whitespace, it matches "y" or "yes" case-insensitively;
on a negative the workflow aborts with exit code 1 and zero removal requests,
on an affirmative it issues the removal batch for every candidate. -/
theorem confirmation_gate_spec {ε : Type} (ctx : Ctx ε) (deployments : List Deployment)
    (aliases : List (List AliasRec)) (c : String)
    (h1 : 1 ≤ ctx.ids.length) (h2 : ctx.help = false) (h3 : ctx.ids.head? ≠ some "help")
    (h4 : ctx.scope = Except.ok c) (h5 : ctx.list = Except.ok deployments)
    (h6 : promiseAll ((resolve deployments ctx.ids).map fun d => ctx.getAliases d.uid) =
      Except.ok aliases)
    (h7 : safetyFilter ctx.safe (resolve deployments ctx.ids) aliases ≠ [])
    (h8 : ctx.yes = false) :
    (isAffirmative ctx.confirm = true ↔
      (jsToLowerCase (jsTrim ctx.confirm) = "y" ∨ jsToLowerCase (jsTrim ctx.confirm) = "yes")) ∧
    (isAffirmative ctx.confirm = false →
      removeMain ctx =
        { result := ExitOrThrow.exit 1, removals := [], noMatchWord := none,
          confirmPrompted := true }) ∧
    (isAffirmative ctx.confirm = true →
      (removeMain ctx).removals =
        removalRequests (safetyFilter ctx.safe (resolve deployments ctx.ids) aliases)) := by
  have hmain := removeMain_resolved ctx deployments aliases c h1 h2 h3 h4 h5 h6
  have hlen : ¬ ((safetyFilter ctx.safe (resolve deployments ctx.ids) aliases).length = 0) := by
    simpa [List.length_eq_zero] using h7
  refine ⟨by simp [isAffirmative], fun hneg => ?_, fun hpos => ?_⟩
  · rw [hmain, if_neg hlen, if_pos (by simp [h8, hneg])]
  · rw [hmain, if_neg hlen, if_neg (by simp [hpos])]
    cases hb : batchRemove ctx.remove ctx.hard
        (safetyFilter ctx.safe (resolve deployments ctx.ids) aliases) <;> simp

/-- C3 witness: answering "no" at the gate of the baseline invocation aborts
with exit code 1 and no removal requests. -/
theorem confirmation_gate_spec_witness :
    removeMain ctxNo =
      { result := ExitOrThrow.exit 1, removals := [], noMatchWord := none,
        confirmPrompted := true } :=
  (confirmation_gate_spec ctxNo [dApp] [[]] "zeus" (by decide) rfl (by decide) rfl rfl rfl
    (by decide) rfl).2.1 (by decide)

/-- C7: when the candidate set is empty after resolution and safe-mode
filtering, the workflow terminates with exit code 0, zero removal requests and
no confirmation prompt, and prints the "could not find ... deployments
matching" message with the word "unaliased" when safe mode is on and "any"
otherwise. -/
theorem empty_candidates_exit_zero {ε : Type} (ctx : Ctx ε) (deployments : List Deployment)
    (aliases : List (List AliasRec)) (c : String)
    (h1 : 1 ≤ ctx.ids.length) (h2 : ctx.help = false) (h3 : ctx.ids.head? ≠ some "help")
    (h4 : ctx.scope = Except.ok c) (h5 : ctx.list = Except.ok deployments)
    (h6 : promiseAll ((resolve deployments ctx.ids).map fun d => ctx.getAliases d.uid) =
      Except.ok aliases)
    (h7 : safetyFilter ctx.safe (resolve deployments ctx.ids) aliases = []) :
    removeMain ctx =
      { result := ExitOrThrow.exit 0, removals := [],
        noMatchWord := some (if ctx.safe then "unaliased" else "any"),
        confirmPrompted := false } := by
  rw [removeMain_resolved ctx deployments aliases c h1 h2 h3 h4 h5 h6, if_pos (by simp [h7])]

/-- C7 witness: safe mode with the only match aliased empties the candidate
set and reports the "unaliased" wording with exit code 0. -/
theorem empty_candidates_exit_zero_witness :
    removeMain ctxSafeAliased =
      { result := ExitOrThrow.exit 0, removals := [],
        noMatchWord := some (if ctxSafeAliased.safe then "unaliased" else "any"),
        confirmPrompted := false } :=
  empty_candidates_exit_zero ctxSafeAliased [dApp] [[{ aliasHost := "app.com" }]] "zeus"
    (by decide) rfl (by decide) rfl rfl rfl (by decide)

/-- C8: counterexample — with the help flag set but zero positional
identifiers the command returns exit code 1 (the usage-error branch runs
first), not 2 as the claim requires of every argument vector requesting
help. -/
theorem help_no_args_counterexample :
    ctxHelpNoArgs.help = true ∧
    (removeMain ctxHelpNoArgs).result = ExitOrThrow.exit 1 := by decide

/-- C8 (amended): when help is requested (help flag set or first positional
argument "help"), the command exits with code 2 provided at least one
positional identifier is supplied; with zero positional arguments the
usage-error exit code 1 takes precedence even though help was requested. -/
theorem help_exits_two {ε : Type} (ctx : Ctx ε)
    (h2 : ctx.help = true ∨ ctx.ids.head? = some "help") :
    removeMain ctx =
      (if ctx.ids.length < 1 then
        { result := ExitOrThrow.exit 1, removals := [], noMatchWord := none,
          confirmPrompted := false }
      else
        { result := ExitOrThrow.exit 2, removals := [], noMatchWord := none,
          confirmPrompted := false }) := by
  unfold removeMain
  by_cases hlen : ctx.ids.length < 1
  · rw [if_pos hlen, if_pos hlen]
  · rw [if_neg hlen, if_neg hlen]
    have hc2 : (ctx.help || ctx.ids.head? == some "help") = true := by
      rcases h2 with h | h <;> simp [h]
    rw [hc2]
    simp

/-- C8 witness: help flag with one positional identifier exits with code 2
and no removal requests. -/
theorem help_exits_two_witness :
    removeMain ctxHelpWithArg =
      (if ctxHelpWithArg.ids.length < 1 then
        { result := ExitOrThrow.exit 1, removals := [], noMatchWord := none,
          confirmPrompted := false }
      else
        { result := ExitOrThrow.exit 2, removals := [], noMatchWord := none,
          confirmPrompted := false }) :=
  help_exits_two ctxHelpWithArg (Or.inl rfl)

/-- C9: counterexample — the transport APIError built from a plain non-2xx
response carries no code discriminant at all, so the claim that every failure
variant of the taxonomy carries one fails on this variant. -/
theorem api_error_no_code_counterexample :
    CliError.codeOf (CliError.api (APIError.make "boom" apiResp500 none)) = none ∧
    (APIError.make "boom" apiResp500 none).status = 500 := by decide

/-- C9 (amended): every NowError-derived variant carries a stable
machine-readable code and the six codes are pairwise distinct, so those
variants are distinguishable by discriminant; the transport APIError instead
carries the HTTP status and the server message — plus the parsed Retry-After
duration for HTTP 429 responses that supply the header — but sets no code
discriminant of its own and is distinguished as a separate class. -/
theorem error_taxonomy_discriminants :
    ([TeamDeleted.code, InvalidToken.code, MissingUser.code, (ConflictingOption "o").code,
      (DomainPermissionDenied "d" "c").code, (DomainNotFound "d").code].Nodup) ∧
    (∀ name d c,
      CliError.codeOf (CliError.conflictingOption name) = some "conflicting_option" ∧
      CliError.codeOf (CliError.domainPermissionDenied d c) = some "DOMAIN_PERMISSION_DENIED" ∧
      CliError.codeOf (CliError.domainNotFound d) = some "DOMAIN_NOT_FOUND" ∧
      CliError.codeOf CliError.teamDeleted = some "team_deleted" ∧
      CliError.codeOf CliError.invalidToken = some "not_authorized" ∧
      CliError.codeOf CliError.missingUser = some "missing_user") ∧
    (∀ m r b, (APIError.make m r b).status = r.status ∧
      (APIError.make m r b).serverMessage = m) ∧
    (∀ m b h, h ≠ "" →
      (APIError.make m { status := 429, retryAfterHeader := some h } b).retryAfter =
        some (parseIntJS h)) ∧
    (∀ m r, CliError.codeOf (CliError.api (APIError.make m r none)) = none) := by
  refine ⟨by decide, fun name d c => ?_, fun m r b => ?_, fun m b h hne => ?_, fun m r => ?_⟩
  · exact ⟨rfl, rfl, rfl, rfl, rfl, rfl⟩
  · exact ⟨rfl, rfl⟩
  · simp [APIError.make, bne, beq_eq_false_iff_ne, hne]
  · simp [APIError.make, CliError.codeOf]

/-- C9 witness: a 429 response with Retry-After header "120" yields an
APIError carrying the parsed duration. -/
theorem error_taxonomy_discriminants_witness :
    ("120" : String) ≠ "" ∧
    (APIError.make "Rate limited" { status := 429, retryAfterHeader := some "120" } none).retryAfter =
      some (parseIntJS "120") :=
  ⟨by decide,
    error_taxonomy_discriminants.2.2.2.1 "Rate limited" none "120" (by decide)⟩
